import Mathlib

/-!
Verification development for the PJM forecast-convergence ingestion pipeline
(`ingest.py`, `db.py`).  Timestamps are modelled as `Int` seconds; forecast
values (megawatts) are carried opaquely as `Int` (the pipeline never computes
with them).  Fetching, CSV parsing and cell parsing are IO/pandas boundaries:
a fetched payload is modelled by its column-name list, its rows (each row
carrying the cell contents at the three resolved roles, with parse failures
as `none`), and its content hash (sha256 is a function of the bytes, so
byte-identical payloads have identical hashes and identical parses).
-/

deriving instance DecidableEq for Except

namespace PJM

/-- A stored forecast run row (table `forecast_runs` in `db.py`):
feed, area, run_ts, payload_hash, plus `created_at` which Postgres fills
with `DEFAULT now()` at insertion time. -/
structure Run where
  feed : String
  area : String
  run_ts : Int
  payload_hash : String
  created_at : Int
deriving DecidableEq

/-- A stored forecast point row (table `forecast_points` in `db.py`),
primary key (feed, area, run_ts, target_ts). -/
structure Point where
  feed : String
  area : String
  run_ts : Int
  target_ts : Int
  mw : Int
deriving DecidableEq

/-- The database state: the two tables. -/
structure Store where
  runs : List Run
  points : List Point
deriving DecidableEq

/-- One raw CSV row, seen at the three resolved roles: the area cell as a
string, and the target-time / value cells after `pd.to_datetime` /
`pd.to_numeric` with `errors="coerce"` (`none` models NaT / NaN). -/
structure Row where
  areaCell : String
  targetCell : Option Int
  mwCell : Option Int
deriving DecidableEq

/-- A normalized point: the `(target_ts, mw_val)` pair of a surviving row. -/
structure NPoint where
  target : Int
  mw : Int
deriving DecidableEq

/-- Errors raised by the pipeline (Python exceptions in `ingest.py`). -/
inductive IngestError where
  | credNotCaptured
  | httpError (status : Nat)
  | schemaMismatch (missing : List String) (columns : List String)
  | tooFewPoints (feed : String) (count : Nat)
  | uniqueViolation
  | indexError
deriving DecidableEq

/-- Per-feed outcome dictionary returned by `ingest_feed`. -/
inductive FeedResult where
  | skipped (feed : String) (reason : String)
  | ok (feed : String) (run_ts : Int) (nPoints : Nat) (firstTarget lastTarget : Int)
deriving DecidableEq

/-- Overall invocation report returned by `ingest_once`. -/
structure Invocation where
  status : String
  results : List FeedResult
deriving DecidableEq

/-! ## CredentialAcquirer (`get_subscription_key_via_browser`, ingest.py 30-63) -/

/-- One observed outgoing network request: its URL and its headers. -/
structure NetRequest where
  url : String
  headers : List (String × String)
deriving DecidableEq

/-- Lowercase an ASCII letter; models Python `str.lower()` on the ASCII
alphabet, which is all this provider's column names and URLs use. -/
def charLower (c : Char) : Char :=
  if 'A' ≤ c && c ≤ 'Z' then Char.ofNat (c.toNat + 32) else c

/-- Python `str.lower()` (ASCII). -/
def strLower (s : String) : String := String.mk (s.data.map charLower)

/-- Does `pat` occur as a contiguous run of `l`? -/
def containsSubstrAux (pat : List Char) : List Char → Bool
  | [] => pat.isEmpty
  | c :: cs => List.isPrefixOf pat (c :: cs) || containsSubstrAux pat cs

/-- Python's substring test `pat in s`. -/
def containsSubstr (s pat : String) : Bool :=
  containsSubstrAux pat.data s.data

/-- Python `dict.get` on the headers mapping. -/
def headerValue (hs : List (String × String)) (k : String) : Option String :=
  (hs.find? (fun h => h.1 == k)).map (fun h => h.2)

/-- The `on_request` observer (ingest.py 37-42): on a request to the
provider's API host, capture the subscription-key header if it is non-empty
and nothing has been captured yet. -/
def on_request (acc : Option String) (req : NetRequest) : Option String :=
  if containsSubstr req.url "api.pjm.com" then
    match headerValue req.headers "ocp-apim-subscription-key" with
    | some k => if k != "" && acc.isNone then some k else acc
    | none => acc
  else acc

/-- The captured key after observing a sequence of requests (the fold of
`on_request` over the requests fired before the wait deadline). -/
def observeRequests (events : List NetRequest) : Option String :=
  events.foldl on_request none

/-- `get_subscription_key_via_browser` on the request sequence observed
before the bounded deadline: returns the captured key, or raises
(ingest.py 61-62) if none was captured. -/
def get_subscription_key_via_browser (events : List NetRequest) :
    Except IngestError String :=
  match observeRequests events with
  | some k => Except.ok k
  | none => Except.error IngestError.credNotCaptured

/-- The non-empty credential value carried by a single request to the
provider's API host, if any. -/
def extractKey (req : NetRequest) : Option String :=
  if containsSubstr req.url "api.pjm.com" then
    match headerValue req.headers "ocp-apim-subscription-key" with
    | some k => if k != "" then some k else none
    | none => none
  else none

/-- The spec's description of the acquirer (§4.1): "the first non-empty
value observed is retained; subsequent values are ignored (first-match-wins)".
Stated with `findSome?`, to be compared with the fold from the source. -/
def firstNonEmptyKeySpec (events : List NetRequest) : Option String :=
  events.findSome? extractKey

/-! ## SchemaResolver (`infer_columns`, ingest.py 82-119) -/

/-- Lookup in the Python dict `{c.lower(): c for c in df.columns}`: later
columns overwrite earlier ones on a lowercase collision, so the value at a
key is the last column whose lowercasing equals it. -/
def lowerLookup (cols : List String) (key : String) : Option String :=
  (cols.filter (fun c => strLower c == key)).getLast?

/-- `find_one` (ingest.py 85-89): probe the candidate aliases in order and
return the original-cased column of the first alias present. -/
def find_one (cols : List String) (cands : List String) : Option String :=
  cands.findSome? (lowerLookup cols)

/-- Alias priority list for the area role (ingest.py 91). -/
def areaCands : List String := ["forecast_area", "area", "zone", "region"]

/-- Alias priority list for the target-time role (ingest.py 94-102). -/
def targetCands : List String :=
  ["forecast_datetime_beginning_utc", "forecast_datetime_beginning_ept",
   "forecast_datetime_utc", "forecast_datetime_ept",
   "datetime_utc", "datetime_ept", "forecast_datetime"]

/-- Alias priority list for the value role (ingest.py 104-110). -/
def mwCands : List String :=
  ["forecast_load_mw", "load_forecast_mw", "forecast_mw", "mw", "load_mw"]

/-- `infer_columns` (ingest.py 82-119): resolve the three roles, or raise
listing the missing roles and the full observed column list. -/
def infer_columns (cols : List String) :
    Except IngestError (String × String × String) :=
  match find_one cols areaCands, find_one cols targetCands, find_one cols mwCands with
  | some a, some t, some m => Except.ok (a, t, m)
  | ca, ct, cm =>
    Except.error (IngestError.schemaMismatch
      ((if ca.isNone then ["forecast_area (or similar)"] else []) ++
       (if ct.isNone then ["forecast_datetime_* (or similar)"] else []) ++
       (if cm.isNone then ["forecast_load_mw (or similar)"] else []))
      cols)

/-! ## PointNormalizer (`normalize_points`, ingest.py 122-132, and the
window/dedupe steps of `ingest_feed`, ingest.py 146-155) -/

/-- The `(target_ts, mw_val)` pair of a row, defined exactly when both the
timestamp and the value parsed (i.e. the row survives both `dropna` calls). -/
def parseRow (r : Row) : Option NPoint :=
  match r.targetCell, r.mwCell with
  | some t, some m => some { target := t, mw := m }
  | _, _ => none

/-- Insertion of a point into a target-ascending list: the point goes in
front of the first element whose target is greater than or equal to its
own. -/
def insertByTarget (p : NPoint) : List NPoint → List NPoint
  | [] => [p]
  | q :: qs =>
    if p.target ≤ q.target then p :: q :: qs else q :: insertByTarget p qs

/-- One output permitted by `df.sort_values("target_ts")` (ingest.py 131),
used as the executable representative of the sort in the deterministic
pipeline (an insertion sort, which happens to keep equal targets in arrival
order).  pandas' default kind='quicksort' is not a stable sort: it
guarantees only some permutation of the rows ascending in the key, with the
relative order of equal keys unspecified.  Properties of the sort are
therefore stated against `SortedByTargetPerm`, the contract every permitted
output satisfies; `sortByTarget_implements_contract` shows this
representative is one of them. -/
def sortByTarget : List NPoint → List NPoint
  | [] => []
  | p :: ps => insertByTarget p (sortByTarget ps)

/-- The full guarantee of `df.sort_values("target_ts")` with the default
kind='quicksort' (ingest.py 131): `l'` is a possible output on input `l`
iff it is a permutation of `l` that ascends in the target key.  The
relative order of rows with equal targets is unspecified, since quicksort
is not stable. -/
def SortedByTargetPerm (l l' : List NPoint) : Prop :=
  l.Perm l' ∧ List.Pairwise (fun a b : NPoint => a.target ≤ b.target) l'

/-- `normalize_points` (ingest.py 122-132): filter to the configured area,
parse timestamps and values dropping failures, sort by target time. -/
def normalize_points (area : String) (rows : List Row) : List NPoint :=
  sortByTarget
    ((((rows.filter (fun r => r.areaCell == area)).filter
        (fun r => r.targetCell.isSome)).filter
        (fun r => r.mwCell.isSome)).filterMap parseRow)

/-- The window predicate applied by `ingest_feed` (ingest.py 146-152) to a
target time: strictly before `now + horizon`, and for the vshort feed also
at or after `now - lookback`. -/
def windowPred (feed : String) (horizonHours lookbackHours now t : Int) : Bool :=
  decide (t < now + horizonHours * 3600) &&
    (if feed == "vshort" then decide (now - lookbackHours * 3600 ≤ t) else true)

/-- The two window-trimming filters of `ingest_feed` (ingest.py 146-152). -/
def windowFilter (feed : String) (horizonHours lookbackHours now : Int)
    (ps : List NPoint) : List NPoint :=
  let ps1 := ps.filter (fun p => decide (p.target < now + horizonHours * 3600))
  if feed == "vshort" then
    ps1.filter (fun p => decide (now - lookbackHours * 3600 ≤ p.target))
  else ps1

/-- `df.drop_duplicates(subset=["target_ts"], keep="last")`
(ingest.py 155): keep, in order, each row no later row shares a target with. -/
def dropDupTargets : List NPoint → List NPoint
  | [] => []
  | p :: ps =>
    if ps.any (fun q => q.target == p.target) then dropDupTargets ps
    else p :: dropDupTargets ps

/-- The full point pipeline of one feed ingestion (ingest.py 144-155):
normalize, trim to the window, de-duplicate target times. -/
def pipelinePoints (feed area : String) (horizonHours lookbackHours now : Int)
    (rows : List Row) : List NPoint :=
  dropDupTargets
    (windowFilter feed horizonHours lookbackHours now
      (normalize_points area rows))

/-! ## RunStore (db.py schema semantics and ingest.py 162-191) -/

/-- The pre-insert duplicate check (ingest.py 165-169): does a run with this
(feed, area, payload_hash) already exist? This is also the condition under
which the unique index `uq_runs_feed_area_hash` (db.py 50-55) rejects an
insert. -/
def hasDupRun (store : Store) (feed area hash : String) : Bool :=
  store.runs.any (fun r =>
    r.feed == feed && r.area == area && r.payload_hash == hash)

/-- The plain `INSERT INTO forecast_runs` (ingest.py 172-175) under the
unique index of db.py 50-55: a duplicate (feed, area, payload_hash) raises a
unique-violation, otherwise the row is appended with `created_at` filled by
the database clock. -/
def insertRunStmt (store : Store) (r : Run) : Except IngestError Store :=
  if hasDupRun store r.feed r.area r.payload_hash then
    Except.error IngestError.uniqueViolation
  else Except.ok { store with runs := store.runs ++ [r] }

/-- Does a point with the same primary key (feed, area, run_ts, target_ts)
already exist (db.py 87-113)? -/
def pointConflicts (store : Store) (p : Point) : Bool :=
  store.points.any (fun q =>
    q.feed == p.feed && q.area == p.area &&
      q.run_ts == p.run_ts && q.target_ts == p.target_ts)

/-- The `executemany INSERT ... ON CONFLICT DO NOTHING` over the points
(ingest.py 178-185): insert row by row, silently skipping key conflicts. -/
def insertPointsStmt (store : Store) (ps : List Point) : Store :=
  ps.foldl
    (fun s p =>
      if pointConflicts s p then s else { s with points := s.points ++ [p] })
    store

/-- The retention pass (ingest.py 187-189): delete runs with
`created_at < cutoff` and points with `run_ts < cutoff`. -/
def prune (cutoff : Int) (store : Store) : Store :=
  { runs := store.runs.filter (fun r => !decide (r.created_at < cutoff)),
    points := store.points.filter (fun p => !decide (p.run_ts < cutoff)) }

/-- The point row inserted for a normalized point (ingest.py 184). -/
def mkPoint (feed area : String) (now : Int) (p : NPoint) : Point :=
  { feed := feed, area := area, run_ts := now, target_ts := p.target, mw := p.mw }

/-- The persistence section of `ingest_feed` after the duplicate pre-check
(ingest.py 172-200): insert the run row (plain INSERT under the unique
index), insert the points tolerating conflicts, prune, commit, and build the
`ok` report (`points[0]` / `points[-1]` raise IndexError on an empty list,
after the commit already happened). -/
def persistAndPrune (feed area : String) (retentionDays now createdAt : Int)
    (payloadHash : String) (pts : List NPoint) (store : Store) :
    Except IngestError FeedResult × Store :=
  match insertRunStmt store
      { feed := feed, area := area, run_ts := now,
        payload_hash := payloadHash, created_at := createdAt } with
  | Except.error e => (Except.error e, store)
  | Except.ok s1 =>
    match pts.head?, pts.getLast? with
    | some p0, some p1 =>
      (Except.ok (FeedResult.ok feed now pts.length p0.target p1.target),
       prune (now - retentionDays * 86400)
         (insertPointsStmt s1 (pts.map (mkPoint feed area now))))
    | _, _ =>
      (Except.error IngestError.indexError,
       prune (now - retentionDays * 86400)
         (insertPointsStmt s1 (pts.map (mkPoint feed area now))))

/-! ## ingest_feed (ingest.py 135-200) -/

/-- `ingest_feed`: resolve the schema, normalize/trim/de-duplicate, enforce
the minimum-points threshold, check for a duplicate payload (skip), else
persist and prune in one transaction.  The fetched payload is given as its
column list, its rows at the resolved roles, and its content hash; `now` is
the ingestion wall clock and `createdAt` the database clock stamping the new
run's `created_at`.  The returned store is unchanged on every error path
that raises before the transaction commits. -/
def ingest_feed (feed : String) (horizonHours lookbackHours minPoints retentionDays : Int)
    (area : String) (now createdAt : Int) (cols : List String) (rows : List Row)
    (payloadHash : String) (store : Store) :
    Except IngestError FeedResult × Store :=
  match infer_columns cols with
  | Except.error e => (Except.error e, store)
  | Except.ok _ =>
    if ((pipelinePoints feed area horizonHours lookbackHours now rows).length : Int) < minPoints then
      (Except.error (IngestError.tooFewPoints feed
        (pipelinePoints feed area horizonHours lookbackHours now rows).length), store)
    else if hasDupRun store feed area payloadHash then
      (Except.ok (FeedResult.skipped feed "duplicate payload_hash"), store)
    else
      persistAndPrune feed area retentionDays now createdAt payloadHash
        (pipelinePoints feed area horizonHours lookbackHours now rows) store

/-! ## ingest_once (ingest.py 203-210) -/

/-- The outcome of one feed's fetch+parse (`fetch_csv` / `parse_csv`):
columns, rows at resolved roles, payload hash — or the HTTP error raised by
`raise_for_status`. -/
structure Fetched where
  cols : List String
  rows : List Row
  payloadHash : String
deriving DecidableEq

/-- The per-invocation configuration (environment values, ingest.py 11-23). -/
structure Config where
  area : String
  retentionDays : Int
  horizon7 : Int
  horizonV : Int
  lookbackV : Int
  minPoints7 : Int
  minPointsV : Int
deriving DecidableEq

/-- `ingest_once` (ingest.py 203-210): acquire the credential, then ingest
the "7day" feed and the "vshort" feed sequentially on the shared store.
There is no exception handling around the `ingest_feed` calls: any raised
error propagates immediately, so a later feed is consulted only when every
earlier feed returned.  `cred` is the credential-acquisition outcome and
`f7`/`fV` the two fetch outcomes; each feed stamps its own wall/database
clock (`now7`/`createdAt7`, `nowV`/`createdAtV`). -/
def ingest_once (cfg : Config) (cred : Except IngestError String)
    (f7 fV : Except IngestError Fetched)
    (now7 createdAt7 nowV createdAtV : Int) (store : Store) :
    Except IngestError Invocation × Store :=
  match cred with
  | Except.error e => (Except.error e, store)
  | Except.ok _ =>
    match f7 with
    | Except.error e => (Except.error e, store)
    | Except.ok d7 =>
      match ingest_feed "7day" cfg.horizon7 cfg.lookbackV cfg.minPoints7
          cfg.retentionDays cfg.area now7 createdAt7 d7.cols d7.rows
          d7.payloadHash store with
      | (Except.error e, s1) => (Except.error e, s1)
      | (Except.ok r1, s1) =>
        match fV with
        | Except.error e => (Except.error e, s1)
        | Except.ok dV =>
          match ingest_feed "vshort" cfg.horizonV cfg.lookbackV cfg.minPointsV
              cfg.retentionDays cfg.area nowV createdAtV dV.cols dV.rows
              dV.payloadHash s1 with
          | (Except.error e, s2) => (Except.error e, s2)
          | (Except.ok r2, s2) =>
            (Except.ok { status := "ok", results := [r1, r2] }, s2)

/-! ## Properties used to state the claims -/

/-- Some column of the input lowercases to the alias `al`. -/
def matchesAlias (cols : List String) (al : String) : Prop :=
  ∃ c ∈ cols, strLower c = al

instance (cols : List String) (al : String) : Decidable (matchesAlias cols al) :=
  inferInstanceAs (Decidable (∃ c ∈ cols, strLower c = al))

/-- The column `r` is the resolution of a role with alias priority list
`cands`: some alias `al` is the first of `cands` present (case-insensitively)
among `cols`, and `r` is the column chosen for `al` (the last column whose
lowercasing is `al`, Python dict overwrite order). -/
def roleFirstChoice (cols cands : List String) (r : String) : Prop :=
  ∃ pre al post, cands = pre ++ al :: post ∧
    (∀ b ∈ pre, ¬ matchesAlias cols b) ∧
    matchesAlias cols al ∧ lowerLookup cols al = some r

/-- A row of the raw table survives every hard filter of the pipeline for
the given feed: area match, both cells parse, and the target lies in the
feed's window. -/
def survivesRow (feed area : String) (horizonHours lookbackHours now : Int)
    (r : Row) : Bool :=
  (r.areaCell == area) &&
    (match parseRow r with
     | some p => windowPred feed horizonHours lookbackHours now p.target
     | none => false)

/-- The run `r` is the run that owns point `p`: the point's foreign
reference (feed, area, run_ts). -/
def runMatches (r : Run) (p : Point) : Prop :=
  r.feed = p.feed ∧ r.area = p.area ∧ r.run_ts = p.run_ts

instance (r : Run) (p : Point) : Decidable (runMatches r p) :=
  inferInstanceAs (Decidable (_ ∧ _ ∧ _))

/-- `p` is a stored point no stored run owns. -/
def isOrphan (s : Store) (p : Point) : Bool :=
  s.points.contains p &&
    s.runs.all (fun r =>
      !(r.feed == p.feed && r.area == p.area && r.run_ts == p.run_ts))

/-! ## Concrete fixtures used by witnesses and counterexamples -/

/-- A column list resolving to (zone, datetime_utc, mw). -/
def wCols : List String := ["zone", "datetime_utc", "mw"]

/-- Two rows for area "A" with targets 100 and 200. -/
def wRows : List Row :=
  [{ areaCell := "A", targetCell := some 100, mwCell := some 5 },
   { areaCell := "A", targetCell := some 200, mwCell := some 6 }]

/-- The empty database. -/
def wEmptyStore : Store := { runs := [], points := [] }

/-- A store already holding a "7day"/"A" run with payload hash "hdup". -/
def wStoreDup : Store :=
  { runs := [{ feed := "7day", area := "A", run_ts := 1,
               payload_hash := "hdup", created_at := 2 }],
    points := [] }

/-- A store already holding a "vshort"/"B" run with payload hash "hx". -/
def wStoreV : Store :=
  { runs := [{ feed := "vshort", area := "B", run_ts := 5,
               payload_hash := "hx", created_at := 6 }],
    points := [] }

/-- A store holding a "vshort"/"A" run with payload hash "h1", ingested at
an earlier wall-clock time. -/
def wStoreVDup : Store :=
  { runs := [{ feed := "vshort", area := "A", run_ts := 900000,
               payload_hash := "h1", created_at := 900001 }],
    points := [] }

/-- A fetched 7day payload whose CSV is missing every value-column alias. -/
def badFetch7 : Fetched := { cols := ["zone", "datetime_utc"], rows := [], payloadHash := "hbad" }

/-- A fetched vshort payload that ingests cleanly at wall-clock 600010. -/
def goodFetchV : Fetched :=
  { cols := wCols,
    rows := [{ areaCell := "A", targetCell := some 600500, mwCell := some 5 }],
    payloadHash := "hgood" }

/-- A small invocation configuration. -/
def cfg0 : Config :=
  { area := "A", retentionDays := 7, horizon7 := 48, horizonV := 2,
    lookbackV := 1, minPoints7 := 1, minPointsV := 1 }

/-- A run whose database insertion time (`created_at` 0) is far behind its
wall-clock `run_ts` 550000 — e.g. recorded by a database whose clock lagged. -/
def orphanRun : Run :=
  { feed := "7day", area := "A", run_ts := 550000, payload_hash := "hOld", created_at := 0 }

/-- The stored point belonging to `orphanRun`. -/
def orphanPoint : Point :=
  { feed := "7day", area := "A", run_ts := 550000, target_ts := 550100, mw := 9 }

/-- A store holding `orphanRun` and its point. -/
def wStoreC2 : Store := { runs := [orphanRun], points := [orphanPoint] }

/-- One fresh row for the C2 ingestion at wall clock 600000. -/
def wRowsC2 : List Row :=
  [{ areaCell := "A", targetCell := some 600100, mwCell := some 7 }]

/-- The store produced by the C2 witness ingestion. -/
def wStoreC2W : Store :=
  { runs := [{ feed := "7day", area := "A", run_ts := 1, payload_hash := "hdup", created_at := 2 },
             { feed := "7day", area := "A", run_ts := 600000, payload_hash := "hW2", created_at := 600001 }],
    points := [{ feed := "7day", area := "A", run_ts := 600000, target_ts := 100, mw := 5 },
               { feed := "7day", area := "A", run_ts := 600000, target_ts := 200, mw := 6 }] }

/-- Rows with a duplicated target time (100 twice) arriving before a
smaller target (50), exercising the sort and the keep-last tie-break. -/
def wRowsC7 : List Row :=
  [{ areaCell := "A", targetCell := some 100, mwCell := some 1 },
   { areaCell := "A", targetCell := some 100, mwCell := some 2 },
   { areaCell := "A", targetCell := some 50, mwCell := some 3 }]

/-- Two surviving rows sharing target 100: the row with value 1 arrives
first, the row with value 2 arrives last. -/
def wRowsTie : List Row :=
  [{ areaCell := "A", targetCell := some 100, mwCell := some 1 },
   { areaCell := "A", targetCell := some 100, mwCell := some 2 }]

/-- A sort output the unstable quicksort is permitted to produce on the
parsed `wRowsTie`: the equal-target rows in reversed arrival order. -/
def wBadSorted : List NPoint :=
  [{ target := 100, mw := 2 }, { target := 100, mw := 1 }]

/-- A permitted sort output on the parsed `wRowsC7` (the arrival-order one). -/
def wGoodSorted : List NPoint :=
  [{ target := 50, mw := 3 }, { target := 100, mw := 1 }, { target := 100, mw := 2 }]

/-- The store produced by the C6 witness ingestion into an empty store. -/
def wStoreC6 : Store :=
  { runs := [{ feed := "7day", area := "A", run_ts := 600000, payload_hash := "hC6", created_at := 600001 }],
    points := [{ feed := "7day", area := "A", run_ts := 600000, target_ts := 100, mw := 5 },
               { feed := "7day", area := "A", run_ts := 600000, target_ts := 200, mw := 6 }] }

/-- A request sequence: a non-API request, an empty key, then two keys. -/
def wEvents : List NetRequest :=
  [{ url := "https://dataminer2.pjm.com/", headers := [("accept", "text/html")] },
   { url := "https://api.pjm.com/api/v1/a", headers := [("ocp-apim-subscription-key", "")] },
   { url := "https://api.pjm.com/api/v1/b", headers := [("ocp-apim-subscription-key", "K1")] },
   { url := "https://api.pjm.com/api/v1/c", headers := [("ocp-apim-subscription-key", "K2")] }]

/-! ## Helper lemmas -/

theorem on_request_some (k : String) (req : NetRequest) :
    on_request (some k) req = some k := by
  unfold on_request
  by_cases hc : containsSubstr req.url "api.pjm.com" = true
  · simp only [if_pos hc]
    cases headerValue req.headers "ocp-apim-subscription-key" with
    | none => rfl
    | some kk => simp
  · simp only [if_neg hc]

theorem on_request_none (req : NetRequest) :
    on_request none req = extractKey req := by
  unfold on_request extractKey
  by_cases hc : containsSubstr req.url "api.pjm.com" = true
  · simp only [if_pos hc]
    cases headerValue req.headers "ocp-apim-subscription-key" with
    | none => rfl
    | some kk => simp
  · simp only [if_neg hc]

theorem foldl_on_request_some (k : String) (events : List NetRequest) :
    events.foldl on_request (some k) = some k := by
  induction events with
  | nil => rfl
  | cons e es ih => rw [List.foldl_cons, on_request_some]; exact ih

theorem observeRequests_eq_spec (events : List NetRequest) :
    observeRequests events = firstNonEmptyKeySpec events := by
  unfold observeRequests firstNonEmptyKeySpec
  induction events with
  | nil => rfl
  | cons e es ih =>
    rw [List.foldl_cons, on_request_none]
    cases hk : extractKey e with
    | some k => simp [List.findSome?_cons, hk, foldl_on_request_some]
    | none => simp only [List.findSome?_cons, hk]; exact ih

theorem persistAndPrune_fst_ne_skipped (feed area : String) (D now ca : Int)
    (hash : String) (pts : List NPoint) (store : Store) (f rsn : String) :
    (persistAndPrune feed area D now ca hash pts store).1 ≠
      Except.ok (FeedResult.skipped f rsn) := by
  unfold persistAndPrune
  split
  · simp
  · split <;> simp

/-! ## C10 -/

/-- C10: when a feed's ingestion takes the duplicate-skip path, the database
state is left completely unchanged by that feed — no rows are inserted and
retention pruning is not performed (the function returns before any DELETE). -/
theorem C10_skip_frame (feed : String) (hz lb mp D : Int) (area : String)
    (now ca : Int) (cols : List String) (rows : List Row) (hash : String)
    (store store' : Store) (f rsn : String)
    (hrun : ingest_feed feed hz lb mp D area now ca cols rows hash store =
      (Except.ok (FeedResult.skipped f rsn), store')) :
    store' = store := by
  unfold ingest_feed at hrun
  cases hic : infer_columns cols with
  | error e => rw [hic] at hrun; simp at hrun
  | ok c =>
    rw [hic] at hrun
    by_cases hmp : ((pipelinePoints feed area hz lb now rows).length : Int) < mp
    · rw [if_pos hmp] at hrun; simp at hrun
    · rw [if_neg hmp] at hrun
      by_cases hdup : hasDupRun store feed area hash = true
      · rw [if_pos hdup] at hrun
        exact (Prod.ext_iff.mp hrun).2.symm
      · rw [if_neg hdup] at hrun
        exact absurd (congrArg Prod.fst hrun)
          (persistAndPrune_fst_ne_skipped feed area D now ca hash _ store f rsn)

/-- C10 witness: a concrete duplicate-skip invocation leaves the concrete
store unchanged. -/
theorem C10_witness :
    ingest_feed "7day" 48 1 1 7 "A" 600000 600001 wCols wRows "hdup" wStoreDup =
      (Except.ok (FeedResult.skipped "7day" "duplicate payload_hash"), wStoreDup)
  ∧ wStoreDup = wStoreDup :=
  ⟨by decide,
   C10_skip_frame "7day" 48 1 1 7 "A" 600000 600001 wCols wRows "hdup"
     wStoreDup wStoreDup "7day" "duplicate payload_hash" (by decide)⟩

/-! ## C4 -/

/-- C4 counterexample: on a store already holding the (feed, area, hash)
run — the situation of a duplicate that slipped past the pre-check due to a
race — the run INSERT (which has no ON CONFLICT clause, ingest.py 172-175)
raises a unique violation that `ingest_feed` does not catch: the feed's
outcome is the propagated error, not a skipped report. -/
theorem C4_counterexample :
    persistAndPrune "7day" "A" 7 600000 600001 "hdup"
        [{ target := 100, mw := 5 }] wStoreDup =
      (Except.error IngestError.uniqueViolation, wStoreDup)
  ∧ (persistAndPrune "7day" "A" 7 600000 600001 "hdup"
        [{ target := 100, mw := 5 }] wStoreDup).1 ≠
      Except.ok (FeedResult.skipped "7day" "duplicate payload_hash") :=
  ⟨by decide, by decide⟩

/-- C4 amended: a run insertion that violates the (feed, area, payload hash)
uniqueness constraint fails the feed with an uncaught unique-violation error
(the transaction rolls back in full, leaving the store unchanged); it is not
reported as a skip. -/
theorem C4_conflict_is_error (feed area : String) (D now ca : Int)
    (hash : String) (pts : List NPoint) (store : Store)
    (hdup : hasDupRun store feed area hash = true) :
    persistAndPrune feed area D now ca hash pts store =
      (Except.error IngestError.uniqueViolation, store) := by
  unfold persistAndPrune insertRunStmt
  simp [hdup]

/-- C4 witness: the amended statement at a concrete raced duplicate. -/
theorem C4_witness :
    hasDupRun wStoreV "vshort" "B" "hx" = true
  ∧ persistAndPrune "vshort" "B" 7 700000 700001 "hx" [] wStoreV =
      (Except.error IngestError.uniqueViolation, wStoreV) :=
  ⟨by decide, C4_conflict_is_error "vshort" "B" 7 700000 700001 "hx" [] wStoreV (by decide)⟩

/-! ## C5 -/

/-- C5 counterexample: there is no distinct `EmptyResult` error.  Zero
surviving rows and a positive-but-insufficient count raise the same
"too few points" error (ingest.py 157-158), differing only in the reported
count; the zero-row case does not produce a distinct error identity. -/
theorem C5_counterexample :
    ingest_feed "7day" 48 1 10 7 "A" 600000 600001 wCols [] "hA" wEmptyStore =
      (Except.error (IngestError.tooFewPoints "7day" 0), wEmptyStore)
  ∧ ingest_feed "7day" 48 1 10 7 "A" 600000 600001 wCols
        [{ areaCell := "A", targetCell := some 100, mwCell := some 5 }] "hB" wEmptyStore =
      (Except.error (IngestError.tooFewPoints "7day" 1), wEmptyStore) :=
  ⟨by decide, by decide⟩

/-- C5 amended: whenever the surviving row count (zero included) is below
the feed's minimum-points threshold, normalization fails with the single
"too few points" error carrying the feed and the count, the failure is fatal
for that feed's run, and nothing is persisted (the store is returned
unchanged). -/
theorem C5_too_few_points (feed : String) (hz lb mp D : Int) (area : String)
    (now ca : Int) (cols : List String) (rows : List Row) (hash : String)
    (store : Store) (c : String × String × String)
    (hcols : infer_columns cols = Except.ok c)
    (hcount : ((pipelinePoints feed area hz lb now rows).length : Int) < mp) :
    ingest_feed feed hz lb mp D area now ca cols rows hash store =
      (Except.error (IngestError.tooFewPoints feed
        (pipelinePoints feed area hz lb now rows).length), store) := by
  unfold ingest_feed
  rw [hcols, if_pos hcount]

/-- C5 witness: the amended statement at a concrete input with zero
surviving rows. -/
theorem C5_witness :
    infer_columns wCols = Except.ok ("zone", "datetime_utc", "mw")
  ∧ ((pipelinePoints "vshort" "A" 2 1 800000 []).length : Int) < 10
  ∧ ingest_feed "vshort" 2 1 10 7 "A" 800000 800001 wCols [] "hC" wEmptyStore =
      (Except.error (IngestError.tooFewPoints "vshort"
        (pipelinePoints "vshort" "A" 2 1 800000 []).length), wEmptyStore) :=
  ⟨by decide, by decide,
   C5_too_few_points "vshort" 2 1 10 7 "A" 800000 800001 wCols [] "hC" wEmptyStore
     ("zone", "datetime_utc", "mw") (by decide) (by decide)⟩

/-! ## C3 -/

/-- C3 counterexample: the duplicate check runs only after normalization and
the minimum-points check (ingest.py 157-169).  A byte-identical vshort
payload re-ingested two hours later has every point trimmed by the
(now-lookback, now+horizon) window, so the second run raises "too few
points" instead of returning `skipped`, although a run with the same feed,
area and payload hash is already stored. -/
theorem C3_counterexample :
    hasDupRun wStoreVDup "vshort" "A" "h1" = true
  ∧ (ingest_feed "vshort" 2 1 1 7 "A" 1000000 1000001 wCols
        [{ areaCell := "A", targetCell := some 100, mwCell := some 5 }]
        "h1" wStoreVDup).1 =
      Except.error (IngestError.tooFewPoints "vshort" 0) :=
  ⟨by decide, by decide⟩

/-- C3 amended: re-ingesting a payload whose hash matches an already-stored
run for the same feed and area returns `skipped` and leaves the store
unchanged (no new run row, no new point rows), provided the second
invocation's normalization still meets the feed's minimum-points threshold
(byte-identical content gives an identical parse and hash, but the window
filters run against the new wall clock before the duplicate check). -/
theorem C3_duplicate_payload_skips (feed : String) (hz lb mp D : Int) (area : String)
    (now ca : Int) (cols : List String) (rows : List Row) (hash : String)
    (store : Store) (c : String × String × String)
    (hcols : infer_columns cols = Except.ok c)
    (hcount : ¬ ((pipelinePoints feed area hz lb now rows).length : Int) < mp)
    (hdup : hasDupRun store feed area hash = true) :
    ingest_feed feed hz lb mp D area now ca cols rows hash store =
      (Except.ok (FeedResult.skipped feed "duplicate payload_hash"), store) := by
  unfold ingest_feed
  rw [hcols, if_neg hcount, if_pos hdup]

/-- C3 witness: a concrete duplicate re-ingestion that still meets the
threshold is skipped with the store unchanged. -/
theorem C3_witness :
    hasDupRun wStoreDup "7day" "A" "hdup" = true
  ∧ ingest_feed "7day" 48 1 2 7 "A" 600000 600001 wCols wRows "hdup" wStoreDup =
      (Except.ok (FeedResult.skipped "7day" "duplicate payload_hash"), wStoreDup) :=
  ⟨by decide,
   C3_duplicate_payload_skips "7day" 48 1 2 7 "A" 600000 600001 wCols wRows "hdup"
     wStoreDup ("zone", "datetime_utc", "mw") (by decide) (by decide) (by decide)⟩

/-! ## C1 -/

/-- C1 counterexample: `ingest_once` has no per-feed exception handling
(ingest.py 203-210).  With a credential acquired, a schema failure on the
first feed makes the whole invocation raise: the second feed — which on its
own would ingest successfully, as the second conjunct shows — is never
attempted, and no per-feed report is produced. -/
theorem C1_counterexample :
    (ingest_once cfg0 (Except.ok "k") (Except.ok badFetch7) (Except.ok goodFetchV)
        600000 600001 600010 600011 wEmptyStore).1 =
      Except.error (IngestError.schemaMismatch ["forecast_load_mw (or similar)"]
        ["zone", "datetime_utc"])
  ∧ (ingest_feed "vshort" 2 1 1 7 "A" 600010 600011 goodFetchV.cols goodFetchV.rows
        goodFetchV.payloadHash wEmptyStore).1 =
      Except.ok (FeedResult.ok "vshort" 600010 1 600500 600500) :=
  ⟨by decide, by decide⟩

/-- C1 amended: after successful credential acquisition, a failure while
ingesting any feed aborts the entire invocation — the error propagates as
the invocation's outcome and later feeds are not attempted (effects already
committed by earlier feeds persist); a report listing every feed's outcome
is produced only when all feeds succeed. -/
theorem C1_feed_failure_aborts (cfg : Config) (k : String) (d7 dV : Fetched)
    (n7 c7 nV cV : Int) (store s1 s2 : Store) :
    (∀ e, ingest_feed "7day" cfg.horizon7 cfg.lookbackV cfg.minPoints7 cfg.retentionDays
          cfg.area n7 c7 d7.cols d7.rows d7.payloadHash store = (Except.error e, s1) →
        ingest_once cfg (Except.ok k) (Except.ok d7) (Except.ok dV) n7 c7 nV cV store =
          (Except.error e, s1))
  ∧ (∀ r1 e, ingest_feed "7day" cfg.horizon7 cfg.lookbackV cfg.minPoints7 cfg.retentionDays
          cfg.area n7 c7 d7.cols d7.rows d7.payloadHash store = (Except.ok r1, s1) →
        ingest_feed "vshort" cfg.horizonV cfg.lookbackV cfg.minPointsV cfg.retentionDays
          cfg.area nV cV dV.cols dV.rows dV.payloadHash s1 = (Except.error e, s2) →
        ingest_once cfg (Except.ok k) (Except.ok d7) (Except.ok dV) n7 c7 nV cV store =
          (Except.error e, s2))
  ∧ (∀ r1 r2, ingest_feed "7day" cfg.horizon7 cfg.lookbackV cfg.minPoints7 cfg.retentionDays
          cfg.area n7 c7 d7.cols d7.rows d7.payloadHash store = (Except.ok r1, s1) →
        ingest_feed "vshort" cfg.horizonV cfg.lookbackV cfg.minPointsV cfg.retentionDays
          cfg.area nV cV dV.cols dV.rows dV.payloadHash s1 = (Except.ok r2, s2) →
        ingest_once cfg (Except.ok k) (Except.ok d7) (Except.ok dV) n7 c7 nV cV store =
          (Except.ok { status := "ok", results := [r1, r2] }, s2)) := by
  refine ⟨?_, ?_, ?_⟩
  · intro e h7
    simp only [ingest_once, h7]
  · intro r1 e h7 hV
    simp only [ingest_once, h7, hV]
  · intro r1 r2 h7 hV
    simp only [ingest_once, h7, hV]

/-- C1 witness: the amended statement at the concrete failing-first-feed
invocation. -/
theorem C1_witness :
    ingest_once cfg0 (Except.ok "k") (Except.ok badFetch7) (Except.ok goodFetchV)
        600000 600001 600010 600011 wEmptyStore =
      (Except.error (IngestError.schemaMismatch ["forecast_load_mw (or similar)"]
        ["zone", "datetime_utc"]), wEmptyStore) :=
  (C1_feed_failure_aborts cfg0 "k" badFetch7 goodFetchV 600000 600001 600010 600011
      wEmptyStore wEmptyStore wEmptyStore).1 _ (by decide)

/-! ## C9 -/

/-- C9: the credential acquirer returns exactly the first non-empty
subscription-key header value among the requests to the provider's API host
observed before the wait deadline (subsequent values are ignored), and it
fails with an error precisely when no observed request carries such a value
(the real-time deadline itself is outside the embedding: `events` is the
request sequence the observer saw before the deadline expired). -/
theorem C9_first_match_wins (events : List NetRequest) :
    (get_subscription_key_via_browser events =
      match firstNonEmptyKeySpec events with
      | some k => Except.ok k
      | none => Except.error IngestError.credNotCaptured)
  ∧ (get_subscription_key_via_browser events = Except.error IngestError.credNotCaptured ↔
      ∀ req ∈ events, extractKey req = none) := by
  have h := observeRequests_eq_spec events
  constructor
  · unfold get_subscription_key_via_browser
    rw [h]
  · unfold get_subscription_key_via_browser
    rw [h]
    cases hk : firstNonEmptyKeySpec events with
    | some k =>
      simp only []
      constructor
      · intro hcontra; exact Except.noConfusion hcontra
      · intro hall
        unfold firstNonEmptyKeySpec at hk
        obtain ⟨req, hmem, hex⟩ := List.exists_of_findSome?_eq_some hk
        rw [hall req hmem] at hex
        exact Option.noConfusion hex
    | none =>
      unfold firstNonEmptyKeySpec at hk
      rw [List.findSome?_eq_none_iff] at hk
      simp only []
      exact ⟨fun _ => hk, fun _ => trivial⟩

/-- C9 witness: the characterization evaluated on a concrete request
sequence (the second request's key is empty, so the third wins). -/
theorem C9_witness :
    get_subscription_key_via_browser wEvents =
      (match firstNonEmptyKeySpec wEvents with
       | some k => Except.ok k
       | none => Except.error IngestError.credNotCaptured) :=
  (C9_first_match_wins wEvents).1

/-! ## Store-level helper lemmas -/

theorem mem_prune_runs {c : Int} {s : Store} {r : Run} :
    r ∈ (prune c s).runs ↔ r ∈ s.runs ∧ c ≤ r.created_at := by
  unfold prune
  simp [List.mem_filter, Int.not_lt]

theorem mem_prune_points {c : Int} {s : Store} {p : Point} :
    p ∈ (prune c s).points ↔ p ∈ s.points ∧ c ≤ p.run_ts := by
  unfold prune
  simp [List.mem_filter, Int.not_lt]

theorem insertPointsStmt_cons (s : Store) (p : Point) (ps : List Point) :
    insertPointsStmt s (p :: ps) =
      insertPointsStmt
        (if pointConflicts s p then s else { s with points := s.points ++ [p] }) ps :=
  rfl

theorem insertPointsStmt_runs (s : Store) (ps : List Point) :
    (insertPointsStmt s ps).runs = s.runs := by
  induction ps generalizing s with
  | nil => rfl
  | cons p ps ih =>
    rw [insertPointsStmt_cons]
    by_cases hc : pointConflicts s p = true
    · rw [if_pos hc]; exact ih s
    · rw [if_neg hc]; exact ih _

theorem mem_insertPointsStmt {s : Store} {ps : List Point} {q : Point}
    (h : q ∈ (insertPointsStmt s ps).points) : q ∈ s.points ∨ q ∈ ps := by
  induction ps generalizing s with
  | nil => exact Or.inl h
  | cons p ps ih =>
    rw [insertPointsStmt_cons] at h
    by_cases hc : pointConflicts s p = true
    · rw [if_pos hc] at h
      rcases ih h with h1 | h1
      · exact Or.inl h1
      · exact Or.inr (List.mem_cons_of_mem p h1)
    · rw [if_neg hc] at h
      rcases ih h with h1 | h1
      · rcases List.mem_append.mp h1 with h2 | h2
        · exact Or.inl h2
        · exact Or.inr (List.mem_cons.mpr (Or.inl (List.mem_singleton.mp h2)))
      · exact Or.inr (List.mem_cons_of_mem p h1)

theorem insertRunStmt_ok {store : Store} {r : Run} {s1 : Store}
    (h : insertRunStmt store r = Except.ok s1) :
    s1 = { store with runs := store.runs ++ [r] } := by
  unfold insertRunStmt at h
  by_cases hd : hasDupRun store r.feed r.area r.payload_hash = true
  · rw [if_pos hd] at h; exact Except.noConfusion h
  · rw [if_neg hd] at h; exact (Except.ok.inj h).symm

/-- The database state after a successful (non-skip, non-error) feed
ingestion: the new run appended, the new points inserted with conflicts
skipped, and the retention pass applied — all in one transaction. -/
theorem ingest_feed_ok_store (feed : String) (hz lb mp D : Int) (area : String)
    (now ca : Int) (cols : List String) (rows : List Row) (hash : String)
    (store store' : Store) (f : String) (rts : Int) (n : Nat) (ft lt2 : Int)
    (hok : ingest_feed feed hz lb mp D area now ca cols rows hash store =
      (Except.ok (FeedResult.ok f rts n ft lt2), store')) :
    store' = prune (now - D * 86400)
      (insertPointsStmt
        { store with runs := store.runs ++
            [{ feed := feed, area := area, run_ts := now, payload_hash := hash,
               created_at := ca }] }
        ((pipelinePoints feed area hz lb now rows).map (mkPoint feed area now))) := by
  unfold ingest_feed at hok
  cases hic : infer_columns cols with
  | error e => rw [hic] at hok; simp at hok
  | ok c =>
    rw [hic] at hok
    by_cases hmp : ((pipelinePoints feed area hz lb now rows).length : Int) < mp
    · rw [if_pos hmp] at hok; simp at hok
    · rw [if_neg hmp] at hok
      by_cases hdup : hasDupRun store feed area hash = true
      · rw [if_pos hdup] at hok; simp at hok
      · rw [if_neg hdup] at hok
        unfold persistAndPrune at hok
        cases hins : insertRunStmt store
            { feed := feed, area := area, run_ts := now, payload_hash := hash,
              created_at := ca } with
        | error e =>
          unfold insertRunStmt at hins
          simp only [if_neg hdup] at hins
          exact Except.noConfusion hins
        | ok s1 =>
          rw [hins] at hok
          rw [insertRunStmt_ok hins] at hok
          cases h0 : (pipelinePoints feed area hz lb now rows).head? with
          | none => simp only [h0] at hok; simp at hok
          | some p0 =>
            cases h1 : (pipelinePoints feed area hz lb now rows).getLast? with
            | none => simp only [h0, h1] at hok; simp at hok
            | some p1 =>
              simp only [h0, h1] at hok
              exact (Prod.ext_iff.mp hok).2.symm

/-! ## C2 -/

/-- C2 counterexample: pruning deletes runs by `created_at` but points by
`run_ts` (ingest.py 188-189), and the schema has no foreign key from points
to runs, so pruning does not cascade.  On a store whose run has
`created_at` older than the horizon but `run_ts` inside it, a successful
ingestion with retention 1 day at wall clock 600000 deletes the run
(created_at 0 < 513600) while keeping its point (run_ts 550000 ≥ 513600):
the point is left orphaned, although its run was just deleted by the pass. -/
theorem C2_counterexample :
    (ingest_feed "7day" 48 1 1 1 "A" 600000 600001 wCols wRowsC2 "hNew" wStoreC2).1 =
      Except.ok (FeedResult.ok "7day" 600000 1 600100 600100)
  ∧ wStoreC2.runs.contains orphanRun = true
  ∧ runMatches orphanRun orphanPoint
  ∧ isOrphan (ingest_feed "7day" 48 1 1 1 "A" 600000 600001 wCols wRowsC2 "hNew" wStoreC2).2
      orphanPoint = true :=
  ⟨by decide, by decide, by decide, by decide⟩

/-- C2 amended: after a pruning pass with retention horizon D performed
during a successful feed ingestion, no stored run has created-at older than
now - D and no stored point has a run timestamp older than now - D; points
are pruned by their run timestamp, not by their run's created-at, so no
orphaned point remains provided every pre-existing run's created-at is at
least its run timestamp (as holds when the database clock does not run
behind the ingestion clock) — without that assumption a deleted run can
leave its points orphaned, as the counterexample shows. -/
theorem C2_retention_amended (feed : String) (hz lb mp D : Int) (area : String)
    (now ca : Int) (cols : List String) (rows : List Row) (hash : String)
    (store store' : Store) (f : String) (rts : Int) (n : Nat) (ft lt2 : Int)
    (hok : ingest_feed feed hz lb mp D area now ca cols rows hash store =
      (Except.ok (FeedResult.ok f rts n ft lt2), store'))
    (hmono : ∀ r ∈ store.runs, r.run_ts ≤ r.created_at)
    (hca : now ≤ ca) (hD : 0 ≤ D) :
    (∀ r ∈ store'.runs, now - D * 86400 ≤ r.created_at)
  ∧ (∀ p ∈ store'.points, now - D * 86400 ≤ p.run_ts)
  ∧ (∀ p ∈ store'.points,
      ((∃ r ∈ store.runs, runMatches r p) ∨ p ∉ store.points) →
        ∃ r ∈ store'.runs, runMatches r p) := by
  have hst := ingest_feed_ok_store feed hz lb mp D area now ca cols rows hash
    store store' f rts n ft lt2 hok
  have hcut : now - D * 86400 ≤ now := by
    have : (0 : Int) ≤ D * 86400 := mul_nonneg hD (by norm_num)
    omega
  subst hst
  refine ⟨?_, ?_, ?_⟩
  · intro r hr
    exact (mem_prune_runs.mp hr).2
  · intro p hp
    exact (mem_prune_points.mp hp).2
  · intro p hp hsrc
    obtain ⟨hp2, hpc⟩ := mem_prune_points.mp hp
    have hruns2 : (insertPointsStmt
        { store with runs := store.runs ++
            [{ feed := feed, area := area, run_ts := now, payload_hash := hash,
               created_at := ca }] }
        ((pipelinePoints feed area hz lb now rows).map (mkPoint feed area now))).runs =
        store.runs ++
          [{ feed := feed, area := area, run_ts := now, payload_hash := hash,
             created_at := ca }] := insertPointsStmt_runs _ _
    rcases hsrc with ⟨r, hrmem, hrm⟩ | hnotold
    · refine ⟨r, ?_, hrm⟩
      rw [mem_prune_runs, hruns2]
      refine ⟨List.mem_append.mpr (Or.inl hrmem), ?_⟩
      have := hmono r hrmem
      have : p.run_ts ≤ r.created_at := hrm.2.2 ▸ this
      omega
    · rcases mem_insertPointsStmt hp2 with hold | hnew
      · exact absurd hold hnotold
      · obtain ⟨q, hq, hqe⟩ := List.mem_map.mp hnew
        refine ⟨{ feed := feed, area := area, run_ts := now, payload_hash := hash,
                  created_at := ca }, ?_, ?_⟩
        · rw [mem_prune_runs, hruns2]
          refine ⟨List.mem_append.mpr (Or.inr (List.mem_singleton.mpr rfl)), ?_⟩
          show now - D * 86400 ≤ ca
          omega
        · rw [← hqe]
          exact ⟨rfl, rfl, rfl⟩

/-- C2 witness: the amended statement at a concrete well-clocked store. -/
theorem C2_witness :
    (ingest_feed "7day" 48 1 1 7 "A" 600000 600001 wCols wRows "hW2" wStoreDup =
      (Except.ok (FeedResult.ok "7day" 600000 2 100 200), wStoreC2W))
  ∧ ((∀ r ∈ wStoreC2W.runs, 600000 - 7 * 86400 ≤ r.created_at)
     ∧ (∀ p ∈ wStoreC2W.points, 600000 - 7 * 86400 ≤ p.run_ts)
     ∧ (∀ p ∈ wStoreC2W.points,
         ((∃ r ∈ wStoreDup.runs, runMatches r p) ∨ p ∉ wStoreDup.points) →
           ∃ r ∈ wStoreC2W.runs, runMatches r p)) :=
  ⟨by decide,
   C2_retention_amended "7day" 48 1 1 7 "A" 600000 600001 wCols wRows "hW2"
     wStoreDup wStoreC2W "7day" 600000 2 100 200 (by decide) (by decide)
     (by decide) (by decide)⟩

/-! ## C6 -/

theorem dropDupTargets_subset {l : List NPoint} {p : NPoint}
    (h : p ∈ dropDupTargets l) : p ∈ l := by
  induction l with
  | nil => exact absurd h (List.not_mem_nil p)
  | cons q qs ih =>
    unfold dropDupTargets at h
    by_cases hc : qs.any (fun x => x.target == q.target) = true
    · rw [if_pos hc] at h
      exact List.mem_cons_of_mem q (ih h)
    · rw [if_neg hc] at h
      rcases List.mem_cons.mp h with h1 | h1
      · exact h1 ▸ List.mem_cons_self q qs
      · exact List.mem_cons_of_mem q (ih h1)

theorem mem_windowFilter {feed : String} {hz lb now : Int} {ps : List NPoint}
    {q : NPoint} (h : q ∈ windowFilter feed hz lb now ps) :
    q ∈ ps ∧ q.target < now + hz * 3600 ∧
      (feed = "vshort" → now - lb * 3600 ≤ q.target) := by
  unfold windowFilter at h
  by_cases hf : (feed == "vshort") = true
  · rw [if_pos hf] at h
    obtain ⟨h1, h2⟩ := List.mem_filter.mp h
    obtain ⟨h3, h4⟩ := List.mem_filter.mp h1
    exact ⟨h3, by simpa using h4, fun _ => by simpa using h2⟩
  · rw [if_neg hf] at h
    obtain ⟨h3, h4⟩ := List.mem_filter.mp h
    exact ⟨h3, by simpa using h4, fun hfe => absurd (by simp [hfe]) hf⟩

/-- C6: every point stored by a successful feed ingestion carries the run's
wall clock as its run timestamp and a target time strictly before
run_ts + horizon; for the vshort feed (the feed with a configured lookback)
the target time is additionally at or after run_ts - lookback. -/
theorem C6_window_bounds (feed : String) (hz lb mp D : Int) (area : String)
    (now ca : Int) (cols : List String) (rows : List Row) (hash : String)
    (store store' : Store) (f : String) (rts : Int) (n : Nat) (ft lt2 : Int)
    (hok : ingest_feed feed hz lb mp D area now ca cols rows hash store =
      (Except.ok (FeedResult.ok f rts n ft lt2), store')) :
    ∀ p ∈ store'.points, p ∉ store.points →
      p.run_ts = now ∧ p.target_ts < p.run_ts + hz * 3600 ∧
        (feed = "vshort" → p.run_ts - lb * 3600 ≤ p.target_ts) := by
  have hst := ingest_feed_ok_store feed hz lb mp D area now ca cols rows hash
    store store' f rts n ft lt2 hok
  subst hst
  intro p hp hnot
  obtain ⟨hp2, _⟩ := mem_prune_points.mp hp
  rcases mem_insertPointsStmt hp2 with hold | hnew
  · exact absurd hold hnot
  · obtain ⟨q, hq, hqe⟩ := List.mem_map.mp hnew
    unfold pipelinePoints at hq
    have hbounds := mem_windowFilter (dropDupTargets_subset hq)
    subst hqe
    exact ⟨rfl, hbounds.2.1, fun hfe => hbounds.2.2 hfe⟩

/-- C6 witness: the bounds at a concrete successful 7day ingestion. -/
theorem C6_witness :
    ingest_feed "7day" 48 1 1 7 "A" 600000 600001 wCols wRows "hC6" wEmptyStore =
      (Except.ok (FeedResult.ok "7day" 600000 2 100 200), wStoreC6)
  ∧ (∀ p ∈ wStoreC6.points, p ∉ wEmptyStore.points →
      p.run_ts = 600000 ∧ p.target_ts < p.run_ts + 48 * 3600 ∧
        ("7day" = "vshort" → p.run_ts - 1 * 3600 ≤ p.target_ts)) :=
  ⟨by decide,
   C6_window_bounds "7day" 48 1 1 7 "A" 600000 600001 wCols wRows "hC6"
     wEmptyStore wStoreC6 "7day" 600000 2 100 200 (by decide)⟩

/-! ## C8 -/

theorem lowerLookup_isSome_iff (cols : List String) (al : String) :
    (lowerLookup cols al).isSome ↔ matchesAlias cols al := by
  unfold lowerLookup matchesAlias
  rw [Option.isSome_iff_ne_none, ne_eq, List.getLast?_eq_none_iff]
  simp [List.filter_eq_nil_iff]

theorem find_one_eq_none_iff (cols cands : List String) :
    find_one cols cands = none ↔ ∀ al ∈ cands, ¬ matchesAlias cols al := by
  unfold find_one
  rw [List.findSome?_eq_none_iff]
  constructor
  · intro h al hal hm
    have hs := (lowerLookup_isSome_iff cols al).mpr hm
    rw [h al hal] at hs
    simp at hs
  · intro h al hal
    cases hv : lowerLookup cols al with
    | none => rfl
    | some v =>
      exact absurd ((lowerLookup_isSome_iff cols al).mp (by rw [hv]; rfl)) (h al hal)

theorem find_one_eq_some_iff (cols cands : List String) (r : String) :
    find_one cols cands = some r ↔
      ∃ pre al post, cands = pre ++ al :: post ∧
        (∀ b ∈ pre, ¬ matchesAlias cols b) ∧ matchesAlias cols al ∧
        lowerLookup cols al = some r := by
  unfold find_one
  rw [List.findSome?_eq_some_iff]
  constructor
  · rintro ⟨l1, a, l2, hsplit, hfa, hnone⟩
    refine ⟨l1, a, l2, hsplit, ?_, ?_, hfa⟩
    · intro b hb hm
      have hs := (lowerLookup_isSome_iff cols b).mpr hm
      rw [hnone b hb] at hs
      simp at hs
    · exact (lowerLookup_isSome_iff cols a).mp (by rw [hfa]; rfl)
  · rintro ⟨pre, al, post, hsplit, hpre, _, hfa⟩
    refine ⟨pre, al, post, hsplit, hfa, ?_⟩
    intro b hb
    cases hv : lowerLookup cols b with
    | none => rfl
    | some v =>
      exact absurd ((lowerLookup_isSome_iff cols b).mp (by rw [hv]; rfl)) (hpre b hb)

theorem infer_columns_ok_iff (cols : List String) (a t m : String) :
    infer_columns cols = Except.ok (a, t, m) ↔
      find_one cols areaCands = some a ∧ find_one cols targetCands = some t ∧
        find_one cols mwCands = some m := by
  unfold infer_columns
  rcases hA : find_one cols areaCands with _ | a1 <;>
    rcases hT : find_one cols targetCands with _ | t1 <;>
      rcases hM : find_one cols mwCands with _ | m1 <;> simp

theorem infer_columns_error_iff (cols : List String) :
    (∃ e, infer_columns cols = Except.error e) ↔
      (find_one cols areaCands = none ∨ find_one cols targetCands = none ∨
        find_one cols mwCands = none) := by
  unfold infer_columns
  rcases hA : find_one cols areaCands with _ | a1 <;>
    rcases hT : find_one cols targetCands with _ | t1 <;>
      rcases hM : find_one cols mwCands with _ | m1 <;> simp

theorem infer_columns_error_cols (cols : List String) : ∀ miss obs : List String,
    infer_columns cols = Except.error (IngestError.schemaMismatch miss obs) →
      obs = cols := by
  intro miss obs h
  unfold infer_columns at h
  rcases hA : find_one cols areaCands with _ | a1 <;> rw [hA] at h <;>
    rcases hT : find_one cols targetCands with _ | t1 <;> rw [hT] at h <;>
      rcases hM : find_one cols mwCands with _ | m1 <;> rw [hM] at h <;>
        simp at h <;> exact h.2.symm

/-- C8: schema resolution is case-insensitive ordered-candidate matching —
a successful resolution picks, for each of the three roles, the column
matched by the first alias of the role's priority list present
(case-insensitively) among the input columns; resolution fails exactly when
some role has no alias present, and the raised error reports the full set
of observed column names. -/
theorem C8_schema_resolution (cols : List String) :
    (∀ a t m, infer_columns cols = Except.ok (a, t, m) →
        roleFirstChoice cols areaCands a ∧ roleFirstChoice cols targetCands t ∧
          roleFirstChoice cols mwCands m)
  ∧ ((∃ e, infer_columns cols = Except.error e) ↔
      ¬ (∃ al ∈ areaCands, matchesAlias cols al) ∨
      ¬ (∃ al ∈ targetCands, matchesAlias cols al) ∨
      ¬ (∃ al ∈ mwCands, matchesAlias cols al))
  ∧ (∀ miss obs, infer_columns cols = Except.error (IngestError.schemaMismatch miss obs) →
        obs = cols) := by
  have conv : ∀ cands r, find_one cols cands = some r → roleFirstChoice cols cands r := by
    intro cands r hr
    obtain ⟨pre, al, post, hsplit, hpre, hm, hfa⟩ := (find_one_eq_some_iff cols cands r).mp hr
    exact ⟨pre, al, post, hsplit, hpre, hm, hfa⟩
  have hn : ∀ cands : List String,
      find_one cols cands = none ↔ ¬ ∃ al ∈ cands, matchesAlias cols al := by
    intro cands
    rw [find_one_eq_none_iff]
    constructor
    · rintro h ⟨al, hal, hm⟩
      exact h al hal hm
    · intro h al hal hm
      exact h ⟨al, hal, hm⟩
  refine ⟨?_, ?_, infer_columns_error_cols cols⟩
  · intro a t m h
    obtain ⟨hA, hT, hM⟩ := (infer_columns_ok_iff cols a t m).mp h
    exact ⟨conv _ _ hA, conv _ _ hT, conv _ _ hM⟩
  · rw [infer_columns_error_iff, hn, hn, hn]

/-- C8 witness: mixed-case "Zone" resolves the area role through the third
alias of the area priority list. -/
theorem C8_witness :
    roleFirstChoice ["Zone", "datetime_utc", "mw"] areaCands "Zone" :=
  ((C8_schema_resolution ["Zone", "datetime_utc", "mw"]).1 "Zone" "datetime_utc" "mw"
    (by decide)).1

/-! ## C7: sorting lemmas -/

theorem mem_insertByTarget {x p : NPoint} {l : List NPoint} :
    x ∈ insertByTarget p l ↔ x = p ∨ x ∈ l := by
  induction l with
  | nil => simp [insertByTarget]
  | cons q qs ih =>
    unfold insertByTarget
    by_cases hle : p.target ≤ q.target
    · rw [if_pos hle]
      simp
    · rw [if_neg hle]
      simp only [List.mem_cons, ih]
      tauto

theorem insertByTarget_pairwise {p : NPoint} {l : List NPoint}
    (h : List.Pairwise (fun a b : NPoint => a.target ≤ b.target) l) :
    List.Pairwise (fun a b : NPoint => a.target ≤ b.target) (insertByTarget p l) := by
  induction l with
  | nil => simp [insertByTarget]
  | cons q qs ih =>
    obtain ⟨hh, ht⟩ := List.pairwise_cons.mp h
    unfold insertByTarget
    by_cases hle : p.target ≤ q.target
    · rw [if_pos hle]
      refine List.pairwise_cons.mpr ⟨?_, h⟩
      intro x hx
      rcases List.mem_cons.mp hx with rfl | hx2
      · exact hle
      · exact le_trans hle (hh x hx2)
    · rw [if_neg hle]
      refine List.pairwise_cons.mpr ⟨?_, ih ht⟩
      intro x hx
      rcases mem_insertByTarget.mp hx with rfl | hx2
      · exact le_of_lt (not_le.mp hle)
      · exact hh x hx2

theorem sortByTarget_pairwise_le (l : List NPoint) :
    List.Pairwise (fun a b : NPoint => a.target ≤ b.target) (sortByTarget l) := by
  induction l with
  | nil => exact List.Pairwise.nil
  | cons p ps ih => exact insertByTarget_pairwise ih

theorem insertByTarget_perm (p : NPoint) (l : List NPoint) :
    (insertByTarget p l).Perm (p :: l) := by
  induction l with
  | nil => exact List.Perm.refl _
  | cons q qs ih =>
    unfold insertByTarget
    by_cases hle : p.target ≤ q.target
    · rw [if_pos hle]
    · rw [if_neg hle]
      exact (List.Perm.cons q ih).trans (List.Perm.swap p q qs)

theorem sortByTarget_perm (l : List NPoint) : (sortByTarget l).Perm l := by
  induction l with
  | nil => exact List.Perm.refl _
  | cons p ps ih =>
    show (insertByTarget p (sortByTarget ps)).Perm (p :: ps)
    exact (insertByTarget_perm p (sortByTarget ps)).trans (List.Perm.cons p ih)

/-- The executable representative `sortByTarget` is one of the outputs the
sort contract permits. -/
theorem sortByTarget_implements_contract (l : List NPoint) :
    SortedByTargetPerm l (sortByTarget l) :=
  ⟨(sortByTarget_perm l).symm, sortByTarget_pairwise_le l⟩

theorem dropDupTargets_pairwise_lt {l : List NPoint}
    (h : List.Pairwise (fun a b : NPoint => a.target ≤ b.target) l) :
    List.Pairwise (fun a b : NPoint => a.target < b.target) (dropDupTargets l) := by
  induction l with
  | nil => exact List.Pairwise.nil
  | cons p ps ih =>
    obtain ⟨hh, ht⟩ := List.pairwise_cons.mp h
    unfold dropDupTargets
    by_cases hc : (ps.any (fun x => x.target == p.target)) = true
    · rw [if_pos hc]
      exact ih ht
    · rw [if_neg hc]
      refine List.pairwise_cons.mpr ⟨?_, ih ht⟩
      intro x hx
      have hx2 : x ∈ ps := dropDupTargets_subset hx
      have hne : x.target ≠ p.target := by
        intro he
        exact hc (List.any_eq_true.mpr ⟨x, hx2, by simp [he]⟩)
      exact lt_of_le_of_ne (hh x hx2) (Ne.symm hne)

theorem getLast?_cons_of_some {α : Type} {l : List α} {a x : α}
    (h : l.getLast? = some x) : (a :: l).getLast? = some x := by
  rw [show a :: l = [a] ++ l from rfl, List.getLast?_append, h]
  rfl

theorem dropDupTargets_last {l : List NPoint} {p : NPoint}
    (h : p ∈ dropDupTargets l) :
    (l.filter (fun q => q.target == p.target)).getLast? = some p := by
  induction l with
  | nil => exact absurd h (List.not_mem_nil p)
  | cons r rs ih =>
    unfold dropDupTargets at h
    by_cases hc : (rs.any (fun x => x.target == r.target)) = true
    · rw [if_pos hc] at h
      have h2 := ih h
      rw [List.filter_cons]
      by_cases hr : (r.target == p.target) = true
      · simp only [hr, if_true]
        exact getLast?_cons_of_some h2
      · simp only [hr, if_false]
        exact h2
    · rw [if_neg hc] at h
      rcases List.mem_cons.mp h with rfl | h1
      · rw [List.filter_cons]
        have hnil : rs.filter (fun q => q.target == p.target) = [] := by
          rw [List.filter_eq_nil_iff]
          intro x hx hxt
          exact hc (List.any_eq_true.mpr ⟨x, hx, hxt⟩)
        simp [hnil]
      · have hp2 : p ∈ rs := dropDupTargets_subset h1
        have h2 := ih h1
        rw [List.filter_cons]
        have hr : (r.target == p.target) = false := by
          by_contra hcon
          have hr2 : (r.target == p.target) = true := by
            simpa using hcon
          have he : p.target = r.target := (beq_iff_eq.mp hr2).symm
          exact hc (List.any_eq_true.mpr ⟨p, hp2, by simp [he]⟩)
        simp only [hr, if_false]
        exact h2

theorem windowFilter_eq_filter (feed : String) (hz lb now : Int) (ps : List NPoint) :
    windowFilter feed hz lb now ps =
      ps.filter (fun p => windowPred feed hz lb now p.target) := by
  unfold windowFilter windowPred
  by_cases hf : (feed == "vshort") = true
  · rw [if_pos hf, List.filter_filter]
    apply List.filter_congr
    intro a _
    rw [if_pos hf, Bool.and_comm]
  · rw [if_neg hf]
    apply List.filter_congr
    intro a _
    rw [if_neg hf, Bool.and_true]

/-- C7 counterexample: pandas' default sort (kind='quicksort') is not
stable, so the code guarantees only some target-ascending permutation of
the surviving rows; which of two equal-target rows comes last — and hence
which one `drop_duplicates(keep="last")` retains — is unspecified.
`wBadSorted` is a permitted sort output on the parsed `wRowsTie` (second
conjunct of `SortedByTargetPerm` holds because the two targets are equal)
under which the pipeline keeps the parse of the FIRST-arriving row
(value 1), while the claim demands the last surviving row in arrival order
(value 2). -/
theorem C7_counterexample :
    SortedByTargetPerm ((((wRowsTie.filter (fun r => r.areaCell == "A")).filter
        (fun r => r.targetCell.isSome)).filter
        (fun r => r.mwCell.isSome)).filterMap parseRow) wBadSorted
  ∧ dropDupTargets (windowFilter "7day" 48 1 600000 wBadSorted) =
      [{ target := 100, mw := 1 }]
  ∧ ((wRowsTie.filter (fun r => survivesRow "7day" "A" 48 1 600000 r &&
        (r.targetCell == some 100))).getLast?).bind parseRow =
      some { target := 100, mw := 2 }
  ∧ ({ target := 100, mw := 1 } : NPoint) ≠ { target := 100, mw := 2 } := by
  refine ⟨⟨?_, ?_⟩, ?_, ?_, ?_⟩ <;> decide

/-- C7 amended: for every output the target-time sort is permitted to
produce — any permutation of the surviving parsed rows ascending in target
time, which is all pandas' default unstable quicksort guarantees — the
de-duplicated point sequence is strictly increasing in target time with no
duplicates; each kept point is the last element carrying its target time in
the sort's output order, and is the parse of some surviving input row
sharing that target time.  Which of several equal-target rows it is remains
unspecified: the arrival-order keep-last tie-break of the original claim
would require a stable sort, which the code does not use. -/
theorem C7_sorted_any_permitted_order (feed area : String) (hz lb now : Int)
    (rows : List Row) (l' : List NPoint)
    (hsort : SortedByTargetPerm
      ((((rows.filter (fun r => r.areaCell == area)).filter
          (fun r => r.targetCell.isSome)).filter
          (fun r => r.mwCell.isSome)).filterMap parseRow) l') :
    List.Pairwise (fun p q : NPoint => p.target < q.target)
      (dropDupTargets (windowFilter feed hz lb now l'))
  ∧ ∀ p ∈ dropDupTargets (windowFilter feed hz lb now l'),
      ((windowFilter feed hz lb now l').filter
          (fun q => q.target == p.target)).getLast? = some p
      ∧ ∃ r ∈ rows, survivesRow feed area hz lb now r = true ∧ parseRow r = some p := by
  obtain ⟨hperm, hpw⟩ := hsort
  constructor
  · apply dropDupTargets_pairwise_lt
    rw [windowFilter_eq_filter]
    exact List.Pairwise.sublist (List.filter_sublist _) hpw
  · intro p hp
    refine ⟨dropDupTargets_last hp, ?_⟩
    have hpw2 : p ∈ windowFilter feed hz lb now l' := dropDupTargets_subset hp
    have hbounds := mem_windowFilter hpw2
    have hpl0 : p ∈ (((rows.filter (fun r => r.areaCell == area)).filter
        (fun r => r.targetCell.isSome)).filter
        (fun r => r.mwCell.isSome)).filterMap parseRow :=
      hperm.mem_iff.mpr hbounds.1
    obtain ⟨r, hr, hparse⟩ := List.mem_filterMap.mp hpl0
    have hr1 := (List.mem_filter.mp hr).1
    have hr2 := (List.mem_filter.mp hr1).1
    have hrmem := (List.mem_filter.mp hr2).1
    have hA : (r.areaCell == area) = true := (List.mem_filter.mp hr2).2
    have hw : windowPred feed hz lb now p.target = true := by
      unfold windowPred
      by_cases hf : (feed == "vshort") = true
      · rw [if_pos hf]
        have hfe : feed = "vshort" := by simpa using hf
        simp [hbounds.2.1, hbounds.2.2 hfe]
      · rw [if_neg hf]
        simp [hbounds.2.1]
    refine ⟨r, hrmem, ?_, hparse⟩
    unfold survivesRow
    rw [hA, hparse]
    simp [hw]

/-- C7 witness: the amended statement evaluated at a concrete permitted
sort output on rows with a duplicated target. -/
theorem C7_any_order_witness :
    SortedByTargetPerm ((((wRowsC7.filter (fun r => r.areaCell == "A")).filter
        (fun r => r.targetCell.isSome)).filter
        (fun r => r.mwCell.isSome)).filterMap parseRow) wGoodSorted
  ∧ (List.Pairwise (fun p q : NPoint => p.target < q.target)
        (dropDupTargets (windowFilter "7day" 48 1 600000 wGoodSorted))
    ∧ ∀ p ∈ dropDupTargets (windowFilter "7day" 48 1 600000 wGoodSorted),
        ((windowFilter "7day" 48 1 600000 wGoodSorted).filter
            (fun q => q.target == p.target)).getLast? = some p
        ∧ ∃ r ∈ wRowsC7, survivesRow "7day" "A" 48 1 600000 r = true ∧
            parseRow r = some p) :=
  ⟨⟨by decide, by decide⟩,
   C7_sorted_any_permitted_order "7day" "A" 48 1 600000 wRowsC7 wGoodSorted
     ⟨by decide, by decide⟩⟩

end PJM
